import Mathlib

/-!
Shallow embedding of `easy_alert/watcher/log_watcher.py` (class `LogWatcher`).

Log lines are modelled as byte lists (`List UInt8`), as in Python 2 where file
iteration yields byte strings; tags are byte strings compared and sorted
byte-wise.  External effects are supplied by an `Env` record: `glob.glob`,
file reading, `json.loads`, `os.remove` outcomes, `get_server_id()` and
`datetime.now()`.  Python exceptions are modelled with `Except`/error values.
-/

namespace EasyAlert

/-- Bytes of an ASCII string (used to build concrete byte-level test data). -/
def asciiBytes (s : String) : List UInt8 := s.data.map (fun c => UInt8.ofNat c.toNat)

/-- A Fluentd tag, a Python 2 byte string. -/
abbrev Tag := List UInt8

/-- A UTF-8 continuation byte (`0x80..0xBF`). -/
abbrev contByte (b : UInt8) : Prop := 0x80 ≤ b.toNat ∧ b.toNat ≤ 0xBF

/-- Valid second byte of a 3-byte UTF-8 sequence with lead byte `b`
(excludes overlong encodings and surrogates, as CPython does). -/
abbrev cont2ok (b b2 : UInt8) : Prop :=
  if b.toNat = 0xE0 then 0xA0 ≤ b2.toNat ∧ b2.toNat ≤ 0xBF
  else if b.toNat = 0xED then 0x80 ≤ b2.toNat ∧ b2.toNat ≤ 0x9F
  else contByte b2

/-- Valid second byte of a 4-byte UTF-8 sequence with lead byte `b`
(excludes overlong encodings and code points above U+10FFFF). -/
abbrev cont3ok (b b2 : UInt8) : Prop :=
  if b.toNat = 0xF0 then 0x90 ≤ b2.toNat ∧ b2.toNat ≤ 0xBF
  else if b.toNat = 0xF4 then 0x80 ≤ b2.toNat ∧ b2.toNat ≤ 0x8F
  else contByte b2

/-- The loop of `bytes.decode('utf-8', 'ignore')`.  Each step consumes at
least one byte, so `fuel = length` suffices; the fuel only makes the
recursion structural. -/
def decodeLoop : Nat → List UInt8 → List Char
  | 0, _ => []
  | _, [] => []
  | fuel + 1, b :: rest =>
    if b.toNat < 0x80 then
      Char.ofNat b.toNat :: decodeLoop fuel rest
    else if 0xC2 ≤ b.toNat ∧ b.toNat ≤ 0xDF then
      match rest with
      | b2 :: rest2 =>
        if contByte b2 then
          Char.ofNat (((b.toNat - 0xC0) <<< 6) + (b2.toNat - 0x80)) :: decodeLoop fuel rest2
        else decodeLoop fuel rest
      | [] => []
    else if 0xE0 ≤ b.toNat ∧ b.toNat ≤ 0xEF then
      match rest with
      | b2 :: b3 :: rest3 =>
        if cont2ok b b2 ∧ contByte b3 then
          Char.ofNat (((b.toNat - 0xE0) <<< 12) + ((b2.toNat - 0x80) <<< 6) + (b3.toNat - 0x80)) ::
            decodeLoop fuel rest3
        else decodeLoop fuel rest
      | _ => decodeLoop fuel rest
    else if 0xF0 ≤ b.toNat ∧ b.toNat ≤ 0xF4 then
      match rest with
      | b2 :: b3 :: b4 :: rest4 =>
        if cont3ok b b2 ∧ contByte b3 ∧ contByte b4 then
          Char.ofNat (((b.toNat - 0xF0) <<< 18) + ((b2.toNat - 0x80) <<< 12) +
              ((b3.toNat - 0x80) <<< 6) + (b4.toNat - 0x80)) ::
            decodeLoop fuel rest4
        else decodeLoop fuel rest
      | _ => decodeLoop fuel rest
    else
      decodeLoop fuel rest

/-- `bytes.decode('utf-8', 'ignore')`: decode UTF-8, dropping invalid bytes
instead of failing.  The function is total: no input makes it raise. -/
def decodeUtf8Ignore (l : List UInt8) : List Char := decodeLoop l.length l

/-- `line.split('\t')` on a byte string: split at every tab byte (9). -/
def splitTab : List UInt8 → List (List UInt8)
  | [] => [[]]
  | b :: rest =>
    match splitTab rest with
    | [] => [[]]
    | t :: ts => if b = 9 then [] :: t :: ts else (b :: t) :: ts

/-- A decoded JSON value, as far as this component inspects it: a string, an
object, or anything else. -/
inductive Json where
  | str : String → Json
  | obj : List (String × Json) → Json
  | other : Json

/-- Python exception kinds that can escape the embedded code. -/
inductive PyErr where
  | indexError : PyErr
  | valueError : PyErr
  | keyError : PyErr
  | typeError : PyErr
  | osError : PyErr
deriving DecidableEq, Repr

/-- `json.loads(...)['message']`: subscripting a non-object raises `TypeError`,
a missing key raises `KeyError`.  A present but non-string `message` value
makes Python fail later, when the summary lines are joined, still inside
`watch()`; the model collapses that to an error here, which is
indistinguishable at the `watch()` boundary. -/
def Json.getMessage : Json → Except PyErr String
  | .obj kvs =>
    match kvs.lookup "message" with
    | some (.str s) => .ok s
    | some _ => .error .typeError
    | none => .error .keyError
  | _ => .error .typeError

/-- Modelled from the spec: the `Level` entity (`easy_alert.entity`, not under
`src/`) — "ordered enum \x7bWARN, ERROR\x7d; ERROR is strictly more severe". -/
inductive Level where
  | WARN : Level
  | ERROR : Level
deriving DecidableEq, Repr

/-- Modelled from the spec: the `Alert` entity (`easy_alert.entity`, not under
`src/`) — "timestamp, severity level (WARN or ERROR), title, body text". -/
structure Alert where
  start_time : Nat
  level : Level
  title : String
  message : String
deriving DecidableEq, Repr

/-- The external world as seen by `LogWatcher`: glob results, file contents,
`json.loads`, whether `os.remove` succeeds, the server id and the clock. -/
structure Env where
  glob : String → List String
  readLines : String → List (List UInt8)
  jsonLoads : String → Option Json
  removeOk : String → Bool
  server_id : String
  now : Nat

/-- The fields stored on the watcher by `Watcher.__init__` (via the `super`
call in `LogWatcher.__init__`), plus the mutable `target_paths`. -/
structure WatcherState where
  watch_dir : String
  target_pattern : String
  pending_pattern : String
  message_threshold : Int
  pending_threshold : Int
  print_only : Bool
  target_paths : Option (List String)

/-- Modelled from the spec: i18n template `MSG_LOG_SUMMARY` (module
`easy_alert.i18n`, not under `src/`) — "a header line with tag name and total
count". -/
def MSG_LOG_SUMMARY (tag : Tag) (count : Nat) : String :=
  String.mk (decodeUtf8Ignore tag) ++ ": " ++ toString count ++ " messages"

/-- Modelled from the spec: i18n template `MSG_LOG_SNIP` — "a truncation
marker line". -/
def MSG_LOG_SNIP : String := "  ..."

/-- Modelled from the spec: i18n template `MSG_LOG_ALERT`, filled with the
server id and the summary body. -/
def MSG_LOG_ALERT (server_id result : String) : String :=
  "Log alert from " ++ server_id ++ "\n" ++ result

/-- Modelled from the spec: i18n constant `MSG_LOG_ALERT_TITLE` — "fixed
title" of the log alert. -/
def MSG_LOG_ALERT_TITLE : String := "Log Alert"

/-- Modelled from the spec: i18n constant `MSG_LOG_ALERT_PENDING_TITLE`. -/
def MSG_LOG_ALERT_PENDING_TITLE : String := "Pending Log Alert"

/-- Modelled from the spec: i18n template `MSG_LOG_ALERT_PENDING`, filled with
the server id, the pending pattern and the newline-joined pending paths —
"one WARN alert listing all pending paths". -/
def MSG_LOG_ALERT_PENDING (server_id pattern paths : String) : String :=
  "Pending log files on " ++ server_id ++ " matching " ++ pattern ++ ":\n" ++ paths

/-- The byte string `'.error'` used in `tag.endswith('.error')`. -/
def errorSuffix : Tag := asciiBytes ".error"

/-- One line of `_parse_files`' inner loop up to the message extraction:
`tokens = line.split('\t')`, `tag = tokens[1]`,
`json.loads(tokens[2].decode('utf-8', 'ignore'))['message']`.
A missing index raises `IndexError`; invalid JSON raises `ValueError`. -/
def parseLine (env : Env) (line : List UInt8) : Except PyErr (Tag × String) :=
  match (splitTab line).get? 1 with
  | none => .error .indexError
  | some tag =>
    match (splitTab line).get? 2 with
    | none => .error .indexError
    | some payload =>
      match env.jsonLoads (String.mk (decodeUtf8Ignore payload)) with
      | none => .error .valueError
      | some j =>
        match j.getMessage with
        | .error e => .error e
        | .ok msg => .ok (tag, msg)

/-- The per-tag aggregation `d`, as an association list in insertion order
(`defaultdict` keyed by tag; only its sorted keys are ever observed). -/
abbrev TagMap := List (Tag × Nat × List String)

/-- The body of `_parse_files`' loop acting on `d`:
`cnt, msgs = d[tag]; cnt += 1; msgs += [msg] if cnt <= threshold else []`. -/
def bump (thr : Int) (tag : Tag) (msg : String) : TagMap → TagMap
  | [] => [(tag, 1, if (1 : Int) ≤ thr then [msg] else [])]
  | (k, cnt, msgs) :: rest =>
    if k = tag then
      (k, cnt + 1, msgs ++ (if ((cnt + 1 : Nat) : Int) ≤ thr then [msg] else [])) :: rest
    else
      (k, cnt, msgs) :: bump thr tag msg rest

/-- `if max_level == Level(WARN) and tag.endswith('.error'): max_level = Level(ERROR)`. -/
def stepLevel (lv : Level) (tag : Tag) : Level :=
  if lv = Level.WARN ∧ errorSuffix.isSuffixOf tag then Level.ERROR else lv

/-- The loop of `_parse_files` over the remaining lines, threading `d` and
`max_level`; the first parse error aborts the whole call. -/
def parseGo (env : Env) (thr : Int) : List (List UInt8) → TagMap → Level → Except PyErr (TagMap × Level)
  | [], d, lv => .ok (d, lv)
  | line :: rest, d, lv =>
    match parseLine env line with
    | .error e => .error e
    | .ok (tag, msg) => parseGo env thr rest (bump thr tag msg d) (stepLevel lv tag)

/-- `_parse_files(self, paths)`: iterate over all lines of all files in order,
starting from an empty `d` and `max_level = Level(WARN)`. -/
def parse_files (thr : Int) (env : Env) (paths : List String) : Except PyErr (TagMap × Level) :=
  parseGo env thr (paths.flatMap env.readLines) [] Level.WARN

/-- Byte-wise lexicographic comparison of byte strings, the Python 2 `<=` on
`str` used by `sorted(result.keys())`. -/
def byteLe : List UInt8 → List UInt8 → Bool
  | [], _ => true
  | _ :: _, [] => false
  | a :: as, b :: bs =>
    if a.toNat < b.toNat then true
    else if b.toNat < a.toNat then false
    else byteLe as bs

/-- `byteLe` as a relation, for sorting. -/
def tagLe (a b : Tag) : Prop := byteLe a b = true

instance : DecidableRel tagLe := fun a b => inferInstanceAs (Decidable (byteLe a b = true))

/-- `sorted(result.keys())`: the tag keys in byte-wise lexicographic order. -/
def sortedKeys (result : TagMap) : List Tag :=
  List.insertionSort tagLe (result.map (fun e => e.1))

/-- The lines `_make_result` emits for one tag: the header, the retained
sample messages, the truncation marker when `cnt > threshold`, and a blank
separator line. -/
def sectionFor (thr : Int) (k : Tag) (cnt : Nat) (msgs : List String) : List String :=
  (MSG_LOG_SUMMARY k cnt :: msgs) ++ ((if (cnt : Int) > thr then [MSG_LOG_SNIP] else []) ++ [""])

/-- Dictionary lookup `result[k]` (`none` models a `KeyError`, which cannot
happen for keys taken from `result.keys()`). -/
def findTag (d : TagMap) (k : Tag) : Option (Nat × List String) :=
  match d with
  | [] => none
  | (k', v) :: rest => if k' = k then some v else findTag rest k

/-- The `buf` list built by `_make_result` before joining. -/
def make_result_buf (thr : Int) (result : TagMap) : List String :=
  (sortedKeys result).flatMap fun k =>
    match findTag result k with
    | some (cnt, msgs) => sectionFor thr k cnt msgs
    | none => []

/-- `_make_result(self, result)`: `'\n'.join(buf)`. -/
def make_result (thr : Int) (result : TagMap) : String :=
  String.intercalate "\n" (make_result_buf thr result)

/-- `_check_pending(self, start_time)`: glob the pending pattern and alert at
WARN when at least `pending_threshold` files match. -/
def check_pending (s : WatcherState) (env : Env) (start_time : Nat) : List Alert :=
  let paths := env.glob s.pending_pattern
  if (paths.length : Int) ≥ s.pending_threshold then
    [⟨start_time, Level.WARN, MSG_LOG_ALERT_PENDING_TITLE,
      MSG_LOG_ALERT_PENDING env.server_id s.pending_pattern (String.intercalate "\n" paths)⟩]
  else []

/-- `watch(self)`: glob targets, store them in `self.target_paths` (this
happens before any parsing, so it happens even when parsing later raises),
fall back to the pending check when nothing matched, otherwise parse and
build the single summary alert. -/
def watch (s : WatcherState) (env : Env) : WatcherState × Except PyErr (List Alert) :=
  let start_time := env.now
  let target := env.glob s.target_pattern
  let s1 := { s with target_paths := some target }
  if target = [] then
    (s1, .ok (check_pending s1 env start_time))
  else
    match parse_files s1.message_threshold env target with
    | .error e => (s1, .error e)
    | .ok (result, max_level) =>
      let message := MSG_LOG_ALERT env.server_id (make_result s1.message_threshold result)
      (s1, .ok [⟨start_time, max_level, MSG_LOG_ALERT_TITLE, message⟩])

/-- An observable filesystem/logging effect of `after_success`. -/
inductive FsOp where
  | remove : String → FsOp
  | logInfo : String → FsOp
deriving DecidableEq, Repr

/-- The loop of `after_success` over the stored paths: in `print_only` mode
log one line per path; otherwise call `os.remove`, whose failure raises
`OSError` and aborts the loop (the code has no try/except).  Returns the
effects performed before any raise, and the raised error if any. -/
def afterLoop (print_only : Bool) (env : Env) : List String → List FsOp × Option PyErr
  | [] => ([], none)
  | p :: rest =>
    if print_only then
      let r := afterLoop print_only env rest
      (FsOp.logInfo ("Would remove: " ++ p) :: r.1, r.2)
    else if env.removeOk p then
      let r := afterLoop print_only env rest
      (FsOp.remove p :: r.1, r.2)
    else ([], some .osError)

/-- `after_success(self)`: iterate `self.target_paths`.  On a fresh watcher
that is `None`, and `for path in None` raises `TypeError`. -/
def after_success (s : WatcherState) (env : Env) : List FsOp × Option PyErr :=
  match s.target_paths with
  | none => ([], some .typeError)
  | some paths => afterLoop s.print_only env paths

/-- `DEFAULT_TARGET_PATTERN` class constant. -/
def DEFAULT_TARGET_PATTERN : String := "alert.????????_????_*.log"

/-- `DEFAULT_PENDING_PATTERN` class constant. -/
def DEFAULT_PENDING_PATTERN : String := "alert.????????_????*"

/-- `DEFAULT_MESSAGE_THRESHOLD` class constant. -/
def DEFAULT_MESSAGE_THRESHOLD : Int := 15

/-- `DEFAULT_PENDING_THRESHOLD` class constant. -/
def DEFAULT_PENDING_THRESHOLD : Int := 3

/-- The configuration dict as consulted by `LogWatcher.__init__`: `None`
models both an absent key and an explicit `None` (`config.get` returns `None`
in both cases). -/
structure PyConfig where
  watch_dir : String
  target_pattern : Option String
  pending_pattern : Option String
  message_threshold : Option Int
  pending_threshold : Option Int

/-- `config.get(key) or default` for a string option: Python truthiness makes
both `None` and `''` fall back to the default. -/
def pyGetOrStr (v : Option String) (d : String) : String :=
  match v with
  | none => d
  | some s => if s = "" then d else s

/-- `config.get(key) or default` for an integer option: Python truthiness
makes both `None` and `0` fall back to the default. -/
def pyGetOrInt (v : Option Int) (d : Int) : Int :=
  match v with
  | none => d
  | some n => if n = 0 then d else n

/-- `os.path.join(a, b)` for POSIX paths, as used on the patterns. -/
def pyPathJoin (a b : String) : String :=
  if b.startsWith "/" then b
  else if a = "" ∨ a.endsWith "/" then a ++ b
  else a ++ "/" ++ b

/-- `LogWatcher.__init__(self, config, print_only, logger)`: resolve the
patterns and thresholds with `or`-fallback and store the initial state with
`target_paths=None`. -/
def logWatcherInit (config : PyConfig) (print_only : Bool) : WatcherState :=
  { watch_dir := config.watch_dir
    target_pattern := pyPathJoin config.watch_dir (pyGetOrStr config.target_pattern DEFAULT_TARGET_PATTERN)
    pending_pattern := pyPathJoin config.watch_dir (pyGetOrStr config.pending_pattern DEFAULT_PENDING_PATTERN)
    message_threshold := pyGetOrInt config.message_threshold DEFAULT_MESSAGE_THRESHOLD
    pending_threshold := pyGetOrInt config.pending_threshold DEFAULT_PENDING_THRESHOLD
    print_only := print_only
    target_paths := none }

/-- A concrete watcher state: patterns `T` and `P`, default thresholds, live
mode, nothing watched yet. -/
def sW : WatcherState :=
  { watch_dir := "/w", target_pattern := "T", pending_pattern := "P"
    message_threshold := 15, pending_threshold := 3
    print_only := false, target_paths := none }

/-- `sW` in dry-run mode. -/
def sDry : WatcherState := { sW with print_only := true }

/-- `sW` with a small message threshold, to exercise truncation. -/
def sThr2 : WatcherState := { sW with message_threshold := 2 }

/-- `sW` after a `watch()` that captured three files. -/
def sAfter : WatcherState := { sW with target_paths := some ["a", "b", "c"] }

/-- A well-formed log line with a tag ending in `.error`. -/
def lineError : List UInt8 := asciiBytes "t\tmonitor.error\tJ1"

/-- A well-formed log line with tag `app.warn`. -/
def lineA : List UInt8 := asciiBytes "t\tapp.warn\tJ1"

/-- A well-formed log line with tag `zeta.warn`. -/
def lineB : List UInt8 := asciiBytes "t\tzeta.warn\tJ1"

/-- A line with a single field: `tokens[1]` raises `IndexError`. -/
def lineOneField : List UInt8 := asciiBytes "justonefield"

/-- A line with two fields: `tokens[2]` raises `IndexError`. -/
def lineTwoFields : List UInt8 := asciiBytes "t\tapp.warn"

/-- A line whose third field is not valid JSON. -/
def lineBadJson : List UInt8 := asciiBytes "t\tapp.warn\tBAD"

/-- A line whose JSON payload has no `message` key. -/
def lineNoMessage : List UInt8 := asciiBytes "t\tapp.warn\tNOMSG"

/-- A line whose third field contains the invalid UTF-8 byte `0xFF` between
the valid bytes of `J1`. -/
def lineInvalidByte : List UInt8 := asciiBytes "t\tapp.warn\tJ" ++ [0xFF] ++ asciiBytes "1"

/-- A concrete environment: one target file containing `lineError`. -/
def envW : Env :=
  { glob := fun p => if p = "T" then ["f1"] else []
    readLines := fun _ => [lineError]
    jsonLoads := fun s =>
      if s = "J1" then some (Json.obj [("message", Json.str "boom")]) else none
    removeOk := fun _ => true
    server_id := "srv"
    now := 0 }

/-- The parse result of `envW`'s single file. -/
def dW : TagMap := [(asciiBytes "monitor.error", 1, ["boom"])]

/-- Environment with the same tagged line three times. -/
def envC2 : Env := { envW with readLines := fun _ => [lineA, lineA, lineA] }

/-- Environment with two target files holding differently tagged lines. -/
def envC6 : Env :=
  { envW with
    glob := fun p => if p = "T" then ["fa", "fb"] else []
    readLines := fun f => if f = "fa" then [lineA] else [lineB] }

/-- Environment with no target files and two pending files. -/
def envP2 : Env := { envW with glob := fun p => if p = "P" then ["a", "b"] else [] }

/-- Environment with no target files and three pending files. -/
def envP3 : Env := { envW with glob := fun p => if p = "P" then ["a", "b", "c"] else [] }

/-- Environment where only the file `a` can be removed. -/
def envHalf : Env := { envW with removeOk := fun p => p = "a" }

/-- Environment delivering one arbitrary line, with a JSON oracle that parses
`J1` (message `boom`) and `NOMSG` (no `message` key) and rejects the rest. -/
def env8 (line : List UInt8) : Env :=
  { envW with
    readLines := fun _ => [line]
    jsonLoads := fun s =>
      if s = "J1" then some (Json.obj [("message", Json.str "boom")])
      else if s = "NOMSG" then some (Json.obj [("level", Json.str "x")])
      else none }

/-- A configuration with all four optional settings present but falsy. -/
def cfgFalsy : PyConfig :=
  { watch_dir := "/w", target_pattern := some "", pending_pattern := some ""
    message_threshold := some 0, pending_threshold := some 0 }

/-- An ordinary configuration. -/
def cfgW : PyConfig :=
  { watch_dir := "/w", target_pattern := some "T", pending_pattern := some "P"
    message_threshold := some 15, pending_threshold := some 3 }

/-- The tag keys of the aggregation, in insertion order. -/
def keysOf (d : TagMap) : List Tag := d.map (fun e => e.1)

/-- Reading `d[tag]` from the `defaultdict`: the stored pair, or `(0, [])`. -/
def lookupTag (d : TagMap) (k : Tag) : Nat × List String :=
  match findTag d k with
  | some v => v
  | none => (0, [])

/-- Whether a line parses successfully to the tag `k`. -/
def lineHasTag (env : Env) (k : Tag) (line : List UInt8) : Bool :=
  match parseLine env line with
  | .ok (t, _) => t = k
  | .error _ => false

theorem keysOf_bump (thr : Int) (tag : Tag) (msg : String) (d : TagMap) :
    keysOf (bump thr tag msg d) =
      if tag ∈ keysOf d then keysOf d else keysOf d ++ [tag] := by
  induction d with
  | nil => simp [bump, keysOf]
  | cons e rest ih =>
    obtain ⟨k, cnt, msgs⟩ := e
    by_cases hk : k = tag
    · subst hk
      simp [bump, keysOf]
    · have hbump : bump thr tag msg ((k, cnt, msgs) :: rest) =
          (k, cnt, msgs) :: bump thr tag msg rest := by
        simp [bump, hk]
      have hkeys2 : keysOf ((k, cnt, msgs) :: bump thr tag msg rest) =
          k :: keysOf (bump thr tag msg rest) := rfl
      rw [hbump, hkeys2, ih, show keysOf ((k, cnt, msgs) :: rest) = k :: keysOf rest from rfl]
      by_cases hmem : tag ∈ keysOf rest
      · rw [if_pos hmem, if_pos (List.mem_cons_of_mem _ hmem)]
      · have hnot : tag ∉ k :: keysOf rest := by
          intro hmem2
          rcases List.mem_cons.mp hmem2 with h' | h'
          · exact hk h'.symm
          · exact hmem h'
        rw [if_neg hmem, if_neg hnot]
        rfl

theorem mem_keysOf_bump (thr : Int) (tag : Tag) (msg : String) (d : TagMap) (t : Tag) :
    t ∈ keysOf (bump thr tag msg d) ↔ t = tag ∨ t ∈ keysOf d := by
  rw [keysOf_bump]
  split
  · next hmem =>
    constructor
    · exact Or.inr
    · rintro (rfl | h)
      · exact hmem
      · exact h
  · next hmem => simp [List.mem_append, or_comm]

theorem nodup_keysOf_bump (thr : Int) (tag : Tag) (msg : String) (d : TagMap)
    (h : (keysOf d).Nodup) : (keysOf (bump thr tag msg d)).Nodup := by
  rw [keysOf_bump]
  split
  · exact h
  · next hmem =>
    refine List.nodup_append.mpr ⟨h, List.nodup_singleton _, ?_⟩
    intro x hx hx'
    rw [List.mem_singleton] at hx'
    subst hx'
    exact hmem hx

theorem findTag_bump (thr : Int) (tag : Tag) (msg : String) (d : TagMap) (k : Tag) :
    findTag (bump thr tag msg d) k =
      if k = tag then
        some ((lookupTag d tag).1 + 1,
          (lookupTag d tag).2 ++
            (if (((lookupTag d tag).1 + 1 : Nat) : Int) ≤ thr then [msg] else []))
      else findTag d k := by
  induction d with
  | nil =>
    by_cases hk : k = tag
    · subst hk
      simp [bump, findTag, lookupTag]
    · simp [bump, findTag, lookupTag, hk, Ne.symm hk]
  | cons e rest ih =>
    obtain ⟨k', c, m⟩ := e
    by_cases hk' : k' = tag
    · subst hk'
      by_cases hk : k = k'
      · subst hk
        simp [bump, findTag, lookupTag]
      · simp [bump, findTag, lookupTag, hk, Ne.symm hk]
    · have hbump : bump thr tag msg ((k', c, m) :: rest) =
          (k', c, m) :: bump thr tag msg rest := by
        simp [bump, hk']
      rw [hbump]
      have hfind : findTag ((k', c, m) :: bump thr tag msg rest) k =
          if k' = k then some (c, m) else findTag (bump thr tag msg rest) k := rfl
      have hfind2 : findTag ((k', c, m) :: rest) k =
          if k' = k then some (c, m) else findTag rest k := rfl
      have hlook : lookupTag ((k', c, m) :: rest) tag = lookupTag rest tag := by
        simp [lookupTag, findTag, hk']
      rw [hfind, hfind2, hlook]
      by_cases hkk : k' = k
      · subst hkk
        rw [if_pos rfl, if_pos rfl, if_neg hk']
      · rw [if_neg hkk, if_neg hkk, ih]

theorem lookupTag_bump (thr : Int) (tag : Tag) (msg : String) (d : TagMap) (k : Tag) :
    lookupTag (bump thr tag msg d) k =
      if k = tag then
        ((lookupTag d tag).1 + 1,
         (lookupTag d tag).2 ++
           (if (((lookupTag d tag).1 + 1 : Nat) : Int) ≤ thr then [msg] else []))
      else lookupTag d k := by
  rw [lookupTag, findTag_bump]
  by_cases hk : k = tag
  · simp [hk]
  · simp [hk, lookupTag]

theorem findTag_eq_of_mem_keysOf (d : TagMap) (k : Tag) (hk : k ∈ keysOf d) :
    findTag d k = some (lookupTag d k) := by
  induction d with
  | nil => simp [keysOf] at hk
  | cons e rest ih =>
    obtain ⟨k', v⟩ := e
    by_cases h : k' = k
    · subst h
      simp [findTag, lookupTag]
    · have hk' : k ∈ keysOf rest := by
        rcases List.mem_cons.mp hk with h' | h'
        · exact absurd h'.symm h
        · exact h'
      have h1 : findTag ((k', v) :: rest) k = findTag rest k := by
        simp [findTag, h]
      have h2 : lookupTag ((k', v) :: rest) k = lookupTag rest k := by
        rw [lookupTag, h1, lookupTag]
      rw [h1, h2, ih hk']

theorem stepLevel_eq_error (lv : Level) (tag : Tag) :
    stepLevel lv tag = Level.ERROR ↔
      lv = Level.ERROR ∨ errorSuffix.isSuffixOf tag = true := by
  cases lv with
  | WARN =>
    by_cases hs : errorSuffix.isSuffixOf tag = true <;> simp [stepLevel, hs]
  | ERROR => simp [stepLevel]

theorem parseGo_keys (env : Env) (thr : Int) (l : List (List UInt8)) :
    ∀ d lv d' lv', parseGo env thr l d lv = .ok (d', lv') →
      ∀ t, t ∈ keysOf d' ↔
        t ∈ keysOf d ∨ ∃ line ∈ l, ∃ m, parseLine env line = .ok (t, m) := by
  induction l with
  | nil =>
    intro d lv d' lv' h t
    simp only [parseGo, Except.ok.injEq, Prod.mk.injEq] at h
    obtain ⟨rfl, rfl⟩ := h
    simp
  | cons line rest ih =>
    intro d lv d' lv' h t
    simp only [parseGo] at h
    cases hp : parseLine env line with
    | error e => rw [hp] at h; simp at h
    | ok pr =>
      obtain ⟨tag, msg⟩ := pr
      rw [hp] at h
      rw [ih _ _ _ _ h t, mem_keysOf_bump]
      constructor
      · rintro ((rfl | hd) | ⟨l', hl', m, hok⟩)
        · exact Or.inr ⟨line, List.mem_cons_self _ _, msg, hp⟩
        · exact Or.inl hd
        · exact Or.inr ⟨l', List.mem_cons_of_mem _ hl', m, hok⟩
      · rintro (hd | ⟨l', hl', m, hok⟩)
        · exact Or.inl (Or.inr hd)
        · rcases List.mem_cons.mp hl' with rfl | hl''
          · rw [hp] at hok
            simp only [Except.ok.injEq, Prod.mk.injEq] at hok
            exact Or.inl (Or.inl hok.1.symm)
          · exact Or.inr ⟨l', hl'', m, hok⟩

theorem parseGo_nodup (env : Env) (thr : Int) (l : List (List UInt8)) :
    ∀ d lv d' lv', parseGo env thr l d lv = .ok (d', lv') →
      (keysOf d).Nodup → (keysOf d').Nodup := by
  induction l with
  | nil =>
    intro d lv d' lv' h hd
    simp only [parseGo, Except.ok.injEq, Prod.mk.injEq] at h
    obtain ⟨rfl, rfl⟩ := h
    exact hd
  | cons line rest ih =>
    intro d lv d' lv' h hd
    simp only [parseGo] at h
    cases hp : parseLine env line with
    | error e => rw [hp] at h; simp at h
    | ok pr =>
      obtain ⟨tag, msg⟩ := pr
      rw [hp] at h
      exact ih _ _ _ _ h (nodup_keysOf_bump _ _ _ _ hd)

theorem parseGo_level (env : Env) (thr : Int) (l : List (List UInt8)) :
    ∀ d lv d' lv', parseGo env thr l d lv = .ok (d', lv') →
      (lv' = Level.ERROR ↔
        lv = Level.ERROR ∨
          ∃ line ∈ l, ∃ t m, parseLine env line = .ok (t, m) ∧
            errorSuffix.isSuffixOf t = true) := by
  induction l with
  | nil =>
    intro d lv d' lv' h
    simp only [parseGo, Except.ok.injEq, Prod.mk.injEq] at h
    obtain ⟨rfl, rfl⟩ := h
    simp
  | cons line rest ih =>
    intro d lv d' lv' h
    simp only [parseGo] at h
    cases hp : parseLine env line with
    | error e => rw [hp] at h; simp at h
    | ok pr =>
      obtain ⟨tag, msg⟩ := pr
      rw [hp] at h
      rw [ih _ _ _ _ h, stepLevel_eq_error]
      constructor
      · rintro ((hlv | hsuf) | ⟨l', hl', t, m, hok, hsuf⟩)
        · exact Or.inl hlv
        · exact Or.inr ⟨line, List.mem_cons_self _ _, tag, msg, hp, hsuf⟩
        · exact Or.inr ⟨l', List.mem_cons_of_mem _ hl', t, m, hok, hsuf⟩
      · rintro (hlv | ⟨l', hl', t, m, hok, hsuf⟩)
        · exact Or.inl (Or.inl hlv)
        · rcases List.mem_cons.mp hl' with rfl | hl''
          · rw [hp] at hok
            simp only [Except.ok.injEq, Prod.mk.injEq] at hok
            exact Or.inl (Or.inr (hok.1 ▸ hsuf))
          · exact Or.inr ⟨l', hl'', t, m, hok, hsuf⟩

theorem parseGo_count (env : Env) (thr : Int) (l : List (List UInt8)) :
    ∀ d lv d' lv', parseGo env thr l d lv = .ok (d', lv') →
      ∀ k, (lookupTag d' k).1 = (lookupTag d k).1 + l.countP (lineHasTag env k) := by
  induction l with
  | nil =>
    intro d lv d' lv' h k
    simp only [parseGo, Except.ok.injEq, Prod.mk.injEq] at h
    obtain ⟨rfl, rfl⟩ := h
    simp [List.countP_nil]
  | cons line rest ih =>
    intro d lv d' lv' h k
    simp only [parseGo] at h
    cases hp : parseLine env line with
    | error e => rw [hp] at h; simp at h
    | ok pr =>
      obtain ⟨tag, msg⟩ := pr
      rw [hp] at h
      have hrec := ih _ _ _ _ h k
      have hl : lineHasTag env k line = decide (tag = k) := by
        simp [lineHasTag, hp]
      rw [hrec, lookupTag_bump, List.countP_cons, hl]
      by_cases hk : k = tag
      · subst hk
        simp
        omega
      · have hd : (decide (tag = k)) = false := by
          simp [Ne.symm hk]
        simp [hk, hd]

theorem parseGo_minlen (env : Env) (thr : Int) (h0 : 0 ≤ thr) (l : List (List UInt8)) :
    ∀ d lv d' lv', parseGo env thr l d lv = .ok (d', lv') →
      (∀ k, (lookupTag d k).2.length = min (lookupTag d k).1 thr.toNat) →
      ∀ k, (lookupTag d' k).2.length = min (lookupTag d' k).1 thr.toNat := by
  induction l with
  | nil =>
    intro d lv d' lv' h hinv k
    simp only [parseGo, Except.ok.injEq, Prod.mk.injEq] at h
    obtain ⟨rfl, rfl⟩ := h
    exact hinv k
  | cons line rest ih =>
    intro d lv d' lv' h hinv k
    simp only [parseGo] at h
    cases hp : parseLine env line with
    | error e => rw [hp] at h; simp at h
    | ok pr =>
      obtain ⟨tag, msg⟩ := pr
      rw [hp] at h
      refine ih _ _ _ _ h ?_ k
      intro k'
      rw [lookupTag_bump]
      by_cases hk : k' = tag
      · rw [if_pos hk]
        have hlen := hinv tag
        by_cases hle : (((lookupTag d tag).1 + 1 : Nat) : Int) ≤ thr
        · rw [if_pos hle]
          dsimp only
          rw [List.length_append]
          simp only [List.length_singleton]
          omega
        · rw [if_neg hle]
          dsimp only
          rw [List.length_append]
          simp only [List.length_nil]
          omega
      · rw [if_neg hk]
        exact hinv k'

theorem byteLe_total (a : List UInt8) : ∀ b, byteLe a b = true ∨ byteLe b a = true := by
  induction a with
  | nil => intro b; left; rfl
  | cons x xs ih =>
    intro b
    cases b with
    | nil => right; rfl
    | cons y ys =>
      by_cases h1 : x.toNat < y.toNat
      · left
        simp [byteLe, h1]
      · by_cases h2 : y.toNat < x.toNat
        · right
          simp [byteLe, h2]
        · rcases ih ys with h | h
          · left
            simp [byteLe, h1, h2, h]
          · right
            simp [byteLe, h1, h2, h]

theorem byteLe_trans (a : List UInt8) :
    ∀ b c, byteLe a b = true → byteLe b c = true → byteLe a c = true := by
  induction a with
  | nil => intro b c _ _; rfl
  | cons x xs ih =>
    intro b c hab hbc
    cases b with
    | nil => simp [byteLe] at hab
    | cons y ys =>
      cases c with
      | nil => simp [byteLe] at hbc
      | cons z zs =>
        simp only [byteLe] at hab hbc ⊢
        split_ifs at hab hbc ⊢ <;>
          first
          | rfl
          | omega
          | exact ih ys zs hab hbc

theorem byteLe_antisymm (a : List UInt8) :
    ∀ b, byteLe a b = true → byteLe b a = true → a = b := by
  induction a with
  | nil =>
    intro b _ hba
    cases b with
    | nil => rfl
    | cons y ys => simp [byteLe] at hba
  | cons x xs ih =>
    intro b hab hba
    cases b with
    | nil => simp [byteLe] at hab
    | cons y ys =>
      simp only [byteLe] at hab hba
      split_ifs at hab hba <;>
        first
        | omega
        | exact absurd hab Bool.false_ne_true
        | exact absurd hba Bool.false_ne_true
        | (have hxy : x = y := UInt8.ext (by omega)
           rw [hxy, ih ys hab hba])

instance : IsTotal Tag tagLe := ⟨fun a b => byteLe_total a b⟩

instance : IsTrans Tag tagLe := ⟨fun a b c => byteLe_trans a b c⟩

instance : IsAntisymm Tag tagLe := ⟨fun a b => byteLe_antisymm a b⟩

theorem watch_fst (s : WatcherState) (env : Env) :
    (watch s env).1 = { s with target_paths := some (env.glob s.target_pattern) } := by
  unfold watch
  dsimp only
  split
  · rfl
  · split <;> rfl

theorem watch_tp_irrel (s : WatcherState) (tp : Option (List String)) (env : Env) :
    watch { s with target_paths := tp } env = watch s env := rfl

theorem afterLoop_print_only (env : Env) (paths : List String) :
    afterLoop true env paths =
      (paths.map (fun p => FsOp.logInfo ("Would remove: " ++ p)), none) := by
  induction paths with
  | nil => rfl
  | cons p rest ih => simp [afterLoop, ih]

theorem afterLoop_removes (env : Env) (paths : List String)
    (h : ∀ p ∈ paths, env.removeOk p = true) :
    afterLoop false env paths = (paths.map FsOp.remove, none) := by
  induction paths with
  | nil => rfl
  | cons p rest ih =>
    have hp : env.removeOk p = true := h p (List.mem_cons_self _ _)
    have ih' := ih (fun q hq => h q (List.mem_cons_of_mem _ hq))
    simp [afterLoop, hp, ih']

/-- Claim C1: whenever the target glob is non-empty and parsing succeeds,
`watch()` returns exactly one `Alert`, and its severity is `ERROR` iff some
tag in the parsed set ends in `.error` (byte-wise, case-sensitive), else
`WARN` (the level `lv` returned by the parse). -/
theorem c1_single_alert_error_iff (s : WatcherState) (env : Env) (d : TagMap) (lv : Level)
    (hne : env.glob s.target_pattern ≠ [])
    (hp : parse_files s.message_threshold env (env.glob s.target_pattern) = .ok (d, lv)) :
    (watch s env).2 = .ok [⟨env.now, lv, MSG_LOG_ALERT_TITLE,
      MSG_LOG_ALERT env.server_id (make_result s.message_threshold d)⟩] ∧
    (lv = Level.ERROR ↔ ∃ k ∈ keysOf d, errorSuffix.isSuffixOf k = true) := by
  constructor
  · unfold watch
    dsimp only
    rw [if_neg hne, hp]
  · have hl := parseGo_level env s.message_threshold
      ((env.glob s.target_pattern).flatMap env.readLines) [] Level.WARN d lv hp
    have hk := parseGo_keys env s.message_threshold
      ((env.glob s.target_pattern).flatMap env.readLines) [] Level.WARN d lv hp
    rw [hl]
    constructor
    · rintro (hw | ⟨line, hline, t, m, hok, hsuf⟩)
      · simp at hw
      · exact ⟨t, (hk t).mpr (Or.inr ⟨line, hline, m, hok⟩), hsuf⟩
    · rintro ⟨k, hkk, hsuf⟩
      rcases (hk k).mp hkk with h0 | ⟨line, hline, m, hok⟩
      · simp [keysOf] at h0
      · exact Or.inr ⟨line, hline, k, m, hok, hsuf⟩

/-- Claim C1, witness: a file with one line tagged `monitor.error` makes
`watch()` return exactly one ERROR alert. -/
theorem c1_witness :
    envW.glob sW.target_pattern ≠ [] ∧
    parse_files sW.message_threshold envW (envW.glob sW.target_pattern) =
      .ok (dW, Level.ERROR) ∧
    ((watch sW envW).2 = .ok [⟨envW.now, Level.ERROR, MSG_LOG_ALERT_TITLE,
        MSG_LOG_ALERT envW.server_id (make_result sW.message_threshold dW)⟩] ∧
      (Level.ERROR = Level.ERROR ↔ ∃ k ∈ keysOf dW, errorSuffix.isSuffixOf k = true)) :=
  ⟨by decide, by rfl, c1_single_alert_error_iff sW envW dW Level.ERROR (by decide) (by rfl)⟩

/-- Claim C2: for every tag, the stored count is the number of lines carrying
that tag, the retained samples number `min(count, message_threshold)`, and the
tag's summary section carries the truncation marker exactly when the count
exceeds the threshold. -/
theorem c2_retained_min_and_marker (env : Env) (thr : Int) (h0 : 0 ≤ thr)
    (paths : List String) (d : TagMap) (lv : Level)
    (hp : parse_files thr env paths = .ok (d, lv)) (k : Tag) :
    (lookupTag d k).1 = (paths.flatMap env.readLines).countP (lineHasTag env k) ∧
    (lookupTag d k).2.length = min (lookupTag d k).1 thr.toNat ∧
    (((lookupTag d k).1 : Int) > thr →
      sectionFor thr k (lookupTag d k).1 (lookupTag d k).2 =
        (MSG_LOG_SUMMARY k (lookupTag d k).1 :: (lookupTag d k).2) ++ [MSG_LOG_SNIP, ""]) ∧
    (((lookupTag d k).1 : Int) ≤ thr →
      sectionFor thr k (lookupTag d k).1 (lookupTag d k).2 =
        (MSG_LOG_SUMMARY k (lookupTag d k).1 :: (lookupTag d k).2) ++ [""]) := by
  refine ⟨?_, ?_, ?_, ?_⟩
  · have h := parseGo_count env thr ((paths.flatMap env.readLines)) [] Level.WARN d lv hp k
    simpa [lookupTag, findTag] using h
  · exact parseGo_minlen env thr h0 (paths.flatMap env.readLines) [] Level.WARN d lv hp
      (fun k' => by simp [lookupTag, findTag]) k
  · intro hgt
    unfold sectionFor
    rw [if_pos hgt]
    rfl
  · intro hle
    unfold sectionFor
    rw [if_neg (not_lt.mpr hle)]
    rfl

/-- Claim C2, witness: with threshold 2 and three `app.warn` lines, two
samples are kept, `min(3, 2) = 2`, and the marker is emitted. -/
theorem c2_witness :
    (0 : Int) ≤ sThr2.message_threshold ∧
    parse_files sThr2.message_threshold envC2 ["f1"] =
      .ok ([(asciiBytes "app.warn", 3, ["boom", "boom"])], Level.WARN) ∧
    (lookupTag [(asciiBytes "app.warn", 3, ["boom", "boom"])] (asciiBytes "app.warn")).2.length =
      min 3 2 ∧
    sectionFor 2 (asciiBytes "app.warn") 3 ["boom", "boom"] =
      (MSG_LOG_SUMMARY (asciiBytes "app.warn") 3 :: ["boom", "boom"]) ++ [MSG_LOG_SNIP, ""] := by
  have h := c2_retained_min_and_marker envC2 sThr2.message_threshold (by decide) ["f1"]
    [(asciiBytes "app.warn", 3, ["boom", "boom"])] Level.WARN (by rfl) (asciiBytes "app.warn")
  exact ⟨by decide, by rfl, h.2.1, h.2.2.1 (by decide)⟩

/-- Claim C3: after a `watch()`, `after_success()` in dry-run mode performs
zero deletions and logs one message per captured path; in live mode (when the
captured files are removable) it removes exactly the captured paths — against
any later environment, i.e. regardless of how the directory changed. -/
theorem c3_after_success_frame (s : WatcherState) (env envAfter : Env) :
    (s.print_only = true →
      after_success ((watch s env).1) envAfter =
        ((env.glob s.target_pattern).map (fun p => FsOp.logInfo ("Would remove: " ++ p)), none) ∧
      ∀ q, FsOp.remove q ∉ (after_success ((watch s env).1) envAfter).1) ∧
    (s.print_only = false →
      (∀ p ∈ env.glob s.target_pattern, envAfter.removeOk p = true) →
      after_success ((watch s env).1) envAfter =
        ((env.glob s.target_pattern).map FsOp.remove, none)) := by
  rw [watch_fst]
  have hs : after_success { s with target_paths := some (env.glob s.target_pattern) } envAfter =
      afterLoop s.print_only envAfter (env.glob s.target_pattern) := rfl
  rw [hs]
  constructor
  · intro hpo
    rw [hpo, afterLoop_print_only]
    refine ⟨rfl, ?_⟩
    intro q hq
    rw [List.mem_map] at hq
    obtain ⟨p, _, hpq⟩ := hq
    exact FsOp.noConfusion hpq
  · intro hpo hok
    rw [hpo, afterLoop_removes envAfter _ hok]

/-- Claim C3, witness: concrete dry-run and live runs over one captured
file. -/
theorem c3_witness :
    sDry.print_only = true ∧ sW.print_only = false ∧
    after_success ((watch sDry envW).1) envW = ([FsOp.logInfo "Would remove: f1"], none) ∧
    after_success ((watch sW envW).1) envW = ([FsOp.remove "f1"], none) := by
  have h1 := (c3_after_success_frame sDry envW envW).1 rfl
  have h2 := (c3_after_success_frame sW envW envW).2 rfl (by decide)
  exact ⟨rfl, rfl, h1.1, h2⟩

/-- Claim C4: when no file matches the target pattern, `watch()` globs the
pending pattern and returns one WARN alert listing all pending paths when
their count reaches `pending_threshold`, else the empty list. -/
theorem c4_pending_threshold (s : WatcherState) (env : Env)
    (h : env.glob s.target_pattern = []) :
    (s.pending_threshold ≤ ((env.glob s.pending_pattern).length : Int) →
      (watch s env).2 = .ok [⟨env.now, Level.WARN, MSG_LOG_ALERT_PENDING_TITLE,
        MSG_LOG_ALERT_PENDING env.server_id s.pending_pattern
          (String.intercalate "\n" (env.glob s.pending_pattern))⟩]) ∧
    (((env.glob s.pending_pattern).length : Int) < s.pending_threshold →
      (watch s env).2 = .ok []) := by
  have hw : (watch s env).2 =
      .ok (check_pending { s with target_paths := some (env.glob s.target_pattern) }
        env env.now) := by
    unfold watch
    dsimp only
    rw [h]
    rfl
  constructor
  · intro hge
    rw [hw]
    unfold check_pending
    dsimp only
    rw [if_pos hge]
  · intro hlt
    rw [hw]
    unfold check_pending
    dsimp only
    rw [if_neg (not_le.mpr hlt)]

/-- Claim C4, witness: with `pending_threshold = 3`, two pending files yield
no alert and three yield one WARN alert listing them. -/
theorem c4_witness :
    envP2.glob sW.target_pattern = [] ∧ envP3.glob sW.target_pattern = [] ∧
    (watch sW envP2).2 = .ok [] ∧
    (watch sW envP3).2 = .ok [⟨0, Level.WARN, MSG_LOG_ALERT_PENDING_TITLE,
      MSG_LOG_ALERT_PENDING "srv" "P" (String.intercalate "\n" ["a", "b", "c"])⟩] := by
  refine ⟨rfl, rfl, ?_, ?_⟩
  · exact (c4_pending_threshold sW envP2 rfl).2 (by decide)
  · exact (c4_pending_threshold sW envP3 rfl).1 (by decide)

/-- Claim C5 (counterexample): `after_success()` has no try/except, so a
failed `os.remove` raises (`OSError` propagates) instead of being swallowed:
targets `a, b, c`, only `a` removable. -/
theorem c5_counterexample :
    after_success sAfter envHalf = ([FsOp.remove "a"], some PyErr.osError) := by rfl

/-- Claim C5 (amended): each captured path is attempted at most once, in
order; the first failing deletion raises and aborts, so exactly the
successful prefix is deleted and nothing is retried. -/
theorem c5_failed_delete_propagates (s : WatcherState) (env : Env)
    (pre : List String) (p : String) (post : List String)
    (hs : s.target_paths = some (pre ++ p :: post)) (hpo : s.print_only = false)
    (hpre : ∀ q ∈ pre, env.removeOk q = true) (hp : env.removeOk p = false) :
    after_success s env = (pre.map FsOp.remove, some PyErr.osError) := by
  have hgoal : after_success s env = afterLoop false env (pre ++ p :: post) := by
    unfold after_success
    rw [hs, hpo]
  rw [hgoal]
  clear hgoal hs
  induction pre with
  | nil => simp [afterLoop, hp]
  | cons q rest ih =>
    have hq : env.removeOk q = true := hpre q (List.mem_cons_self _ _)
    have ih' := ih (fun r hr => hpre r (List.mem_cons_of_mem _ hr))
    simp [afterLoop, hq, ih']

/-- Claim C5 (amended), witness: the failing run deletes only the prefix
`[a]`, raises, and never retries `b`. -/
theorem c5_witness :
    sAfter.target_paths = some (["a"] ++ "b" :: ["c"]) ∧ sAfter.print_only = false ∧
    (∀ q ∈ ["a"], envHalf.removeOk q = true) ∧ envHalf.removeOk "b" = false ∧
    after_success sAfter envHalf = ([FsOp.remove "a"], some PyErr.osError) :=
  ⟨rfl, rfl, by decide, by decide,
    c5_failed_delete_propagates sAfter envHalf ["a"] "b" ["c"] rfl rfl
      (by decide) (by decide)⟩

/-- Claim C6: the summary body is the concatenation of per-tag sections taken
in strictly (byte-wise lexicographic, duplicate-free) sorted tag order, and
that order is invariant under any permutation of the input files and of the
lines' arrival order. -/
theorem c6_sections_sorted_and_order_invariant (env : Env) (thr : Int)
    (paths1 paths2 : List String)
    (hperm : (paths1.flatMap env.readLines).Perm (paths2.flatMap env.readLines))
    (d1 d2 : TagMap) (lv1 lv2 : Level)
    (h1 : parse_files thr env paths1 = .ok (d1, lv1))
    (h2 : parse_files thr env paths2 = .ok (d2, lv2)) :
    List.Pairwise (fun a b => tagLe a b ∧ a ≠ b) (sortedKeys d1) ∧
    sortedKeys d1 = sortedKeys d2 ∧
    make_result_buf thr d1 = (sortedKeys d1).flatMap (fun k =>
      match findTag d1 k with
      | some (cnt, msgs) => sectionFor thr k cnt msgs
      | none => []) := by
  have hn1 : (keysOf d1).Nodup :=
    parseGo_nodup env thr _ [] Level.WARN d1 lv1 h1 (by simp [keysOf])
  have hn2 : (keysOf d2).Nodup :=
    parseGo_nodup env thr _ [] Level.WARN d2 lv2 h2 (by simp [keysOf])
  have hperm1 : (sortedKeys d1).Perm (keysOf d1) := List.perm_insertionSort tagLe _
  have hperm2 : (sortedKeys d2).Perm (keysOf d2) := List.perm_insertionSort tagLe _
  have hsort1 : List.Sorted tagLe (sortedKeys d1) := List.sorted_insertionSort tagLe _
  have hsort2 : List.Sorted tagLe (sortedKeys d2) := List.sorted_insertionSort tagLe _
  refine ⟨?_, ?_, rfl⟩
  · exact List.Pairwise.and hsort1 (hperm1.nodup_iff.mpr hn1)
  · have hmem : ∀ t, t ∈ keysOf d1 ↔ t ∈ keysOf d2 := by
      intro t
      rw [parseGo_keys env thr _ [] Level.WARN d1 lv1 h1 t,
        parseGo_keys env thr _ [] Level.WARN d2 lv2 h2 t]
      constructor
      · rintro (h0 | ⟨line, hline, m, hok⟩)
        · simp [keysOf] at h0
        · exact Or.inr ⟨line, hperm.mem_iff.mp hline, m, hok⟩
      · rintro (h0 | ⟨line, hline, m, hok⟩)
        · simp [keysOf] at h0
        · exact Or.inr ⟨line, hperm.mem_iff.mpr hline, m, hok⟩
    have hkperm : (keysOf d1).Perm (keysOf d2) :=
      (List.perm_ext_iff_of_nodup hn1 hn2).mpr hmem
    exact List.eq_of_perm_of_sorted (hperm1.trans (hkperm.trans hperm2.symm)) hsort1 hsort2

/-- Claim C6, witness: swapping the two input files leaves the sorted section
order unchanged. -/
theorem c6_witness :
    (["fa", "fb"].flatMap envC6.readLines).Perm (["fb", "fa"].flatMap envC6.readLines) ∧
    parse_files 15 envC6 ["fa", "fb"] =
      .ok ([(asciiBytes "app.warn", 1, ["boom"]), (asciiBytes "zeta.warn", 1, ["boom"])],
        Level.WARN) ∧
    parse_files 15 envC6 ["fb", "fa"] =
      .ok ([(asciiBytes "zeta.warn", 1, ["boom"]), (asciiBytes "app.warn", 1, ["boom"])],
        Level.WARN) ∧
    sortedKeys [(asciiBytes "app.warn", 1, ["boom"]), (asciiBytes "zeta.warn", 1, ["boom"])] =
      sortedKeys [(asciiBytes "zeta.warn", 1, ["boom"]), (asciiBytes "app.warn", 1, ["boom"])] := by
  have hperm : (["fa", "fb"].flatMap envC6.readLines).Perm
      (["fb", "fa"].flatMap envC6.readLines) := by decide
  refine ⟨hperm, by rfl, by rfl, ?_⟩
  exact (c6_sections_sorted_and_order_invariant envC6 15 ["fa", "fb"] ["fb", "fa"] hperm
    _ _ Level.WARN Level.WARN (by rfl) (by rfl)).2.1

/-- Claim C7: with the directory contents (and the rest of the environment)
unchanged and no `after_success()` in between, a second `watch()` returns the
same result and state; `watch()`'s output never depends on the mutable
`target_paths` field, the only state it changes. -/
theorem c7_watch_idempotent (s : WatcherState) (env : Env) :
    (watch ((watch s env).1) env).2 = (watch s env).2 ∧
    (watch ((watch s env).1) env).1 = (watch s env).1 := by
  rw [watch_fst]
  constructor
  · exact congrArg Prod.snd (watch_tp_irrel s _ env)
  · rw [watch_tp_irrel s _ env]
    exact watch_fst s env

/-- Claim C8: a line with missing fields, an invalid JSON payload, or a JSON
payload without `message` makes `watch()` raise instead of skipping the line;
an invalid byte (`0xFF`) in the payload is ignored by the decode step and the
line still parses. -/
theorem c8_malformed_line_raises :
    (watch sW (env8 lineOneField)).2 = .error PyErr.indexError ∧
    (watch sW (env8 lineTwoFields)).2 = .error PyErr.indexError ∧
    (watch sW (env8 lineBadJson)).2 = .error PyErr.valueError ∧
    (watch sW (env8 lineNoMessage)).2 = .error PyErr.keyError ∧
    (watch sW (env8 lineInvalidByte)).2 = .ok [⟨0, Level.WARN, MSG_LOG_ALERT_TITLE,
      MSG_LOG_ALERT "srv" (make_result 15 [(asciiBytes "app.warn", 1, ["boom"])])⟩] :=
  ⟨rfl, rfl, rfl, rfl, rfl⟩

theorem pyGetOrInt_ne_zero (v : Option Int) (d : Int) (hd : d ≠ 0) : pyGetOrInt v d ≠ 0 := by
  cases v with
  | none => exact hd
  | some n =>
    by_cases hn : n = 0
    · show (if n = 0 then d else n) ≠ 0
      rw [if_pos hn]
      exact hd
    · show (if n = 0 then d else n) ≠ 0
      rw [if_neg hn]
      exact hn

/-- Claim C9: the `or`-fallback in the constructor silently replaces falsy
settings (`0`, `''`, `None`) by the class defaults, so a threshold of `0`
cannot be configured. -/
theorem c9_falsy_config_defaults (config : PyConfig) (p : Bool) :
    (config.message_threshold = some 0 →
      (logWatcherInit config p).message_threshold = DEFAULT_MESSAGE_THRESHOLD) ∧
    (config.pending_threshold = some 0 →
      (logWatcherInit config p).pending_threshold = DEFAULT_PENDING_THRESHOLD) ∧
    (config.target_pattern = some "" →
      (logWatcherInit config p).target_pattern =
        pyPathJoin config.watch_dir DEFAULT_TARGET_PATTERN) ∧
    (config.pending_pattern = some "" →
      (logWatcherInit config p).pending_pattern =
        pyPathJoin config.watch_dir DEFAULT_PENDING_PATTERN) ∧
    (logWatcherInit config p).message_threshold ≠ 0 ∧
    (logWatcherInit config p).pending_threshold ≠ 0 := by
  refine ⟨?_, ?_, ?_, ?_, ?_, ?_⟩
  · intro h; simp [logWatcherInit, pyGetOrInt, h]
  · intro h; simp [logWatcherInit, pyGetOrInt, h]
  · intro h; simp [logWatcherInit, pyGetOrStr, h]
  · intro h; simp [logWatcherInit, pyGetOrStr, h]
  · exact pyGetOrInt_ne_zero _ _ (by decide)
  · exact pyGetOrInt_ne_zero _ _ (by decide)

/-- Claim C9, witness: a configuration with all four options falsy gets all
four defaults. -/
theorem c9_witness :
    cfgFalsy.message_threshold = some 0 ∧ cfgFalsy.pending_threshold = some 0 ∧
    cfgFalsy.target_pattern = some "" ∧ cfgFalsy.pending_pattern = some "" ∧
    (logWatcherInit cfgFalsy false).message_threshold = DEFAULT_MESSAGE_THRESHOLD ∧
    (logWatcherInit cfgFalsy false).pending_threshold = DEFAULT_PENDING_THRESHOLD ∧
    (logWatcherInit cfgFalsy false).target_pattern =
      pyPathJoin cfgFalsy.watch_dir DEFAULT_TARGET_PATTERN ∧
    (logWatcherInit cfgFalsy false).pending_pattern =
      pyPathJoin cfgFalsy.watch_dir DEFAULT_PENDING_PATTERN :=
  ⟨rfl, rfl, rfl, rfl,
    (c9_falsy_config_defaults cfgFalsy false).1 rfl,
    (c9_falsy_config_defaults cfgFalsy false).2.1 rfl,
    (c9_falsy_config_defaults cfgFalsy false).2.2.1 rfl,
    (c9_falsy_config_defaults cfgFalsy false).2.2.2.1 rfl⟩

/-- Claim C10: on a freshly constructed watcher `target_paths` is `None`, so
`after_success()` raises a `TypeError` before any effect; after any
`watch()` the stored target set is always a list, satisfying the
precondition. -/
theorem c10_after_success_requires_watch (config : PyConfig) (p : Bool) (env : Env) :
    after_success (logWatcherInit config p) env = ([], some PyErr.typeError) ∧
    ∀ s : WatcherState,
      ((watch s env).1).target_paths = some (env.glob s.target_pattern) := by
  refine ⟨rfl, ?_⟩
  intro s
  rw [watch_fst]

end EasyAlert
